import Mathlib

set_option maxHeartbeats 1000000

/- Verification of the tezos-hsm-signer core against its specification.
   The definitions below are shallow embeddings of the Go source under
   src/signer/; bytes are modelled as Nat (values < 256 on the wire),
   byte slices as List Nat, and Go big.Int values as Nat (all the numbers
   involved are non-negative). -/

/- Operation kind constants from generic.go. -/

def opKindSeedNonceRevelation : Nat := 0x01

def opKindDoubleEndorsement : Nat := 0x02

def opKindDoubleBakingEvidence : Nat := 0x04

def opKindActivateAccount : Nat := 0x04

def opKindProposal : Nat := 0x05

def opKindBallot : Nat := 0x06

def opKindReveal : Nat := 0x6B

def opKindTransaction : Nat := 0x6C

def opKindOrigination : Nat := 0x6C

def opKindDelegation : Nat := 0x6E

def opKindUnknown : Nat := 0xff

/-- GenericOperation from generic.go: a view over an operation whose magic
byte is generic.  The field hex holds the full decoded payload, magic byte
included (the kind byte sits at offset 33, after magic + 32-byte branch). -/
structure GenericOperation where
  hex : List Nat
deriving DecidableEq

/-- Kind (generic.go lines 45-52): the byte at fixed offset 33, or
opKindUnknown when the payload is not long enough to hold it. -/
def GenericOperation.Kind (op : GenericOperation) : Nat :=
  if op.hex.length ≤ 33 then opKindUnknown else op.hex.getD 33 0

/-- parseSerializedNumber (generic.go lines 156-173): decode the ledger's
little-endian base-128 continuation encoding starting at startIndex.
Returns the decoded value and the index of the next unread byte; running
off the end of the buffer returns zero without consuming bytes. -/
def GenericOperation.parseSerializedNumber (op : GenericOperation) (startIndex : Nat) :
    Nat × Nat :=
  if h : op.hex.length ≤ startIndex then
    (0, startIndex)
  else
    let b := op.hex.getD startIndex 0
    let nextIndex := startIndex + 1
    if 0x80 ≤ b then
      let r := op.parseSerializedNumber nextIndex
      (b % 0x80 + 0x80 * r.1, r.2)
    else
      (b % 0x80 + 0x80 * 0, nextIndex)
termination_by op.hex.length - startIndex
decreasing_by simp_wf; omega

/-- Structural companion of parseSerializedNumber operating on the suffix of
the buffer: returns the decoded value and the number of bytes consumed.
Used to evaluate the well-founded definition on concrete inputs. -/
def serializedNumAux : List Nat → Nat × Nat
  | [] => (0, 0)
  | b :: rest =>
    if 0x80 ≤ b then
      let r := serializedNumAux rest
      (b % 0x80 + 0x80 * r.1, r.2 + 1)
    else
      (b % 0x80, 1)

/-- Canonical little-endian base-128 encoding of a natural number: each byte
carries 7 low-order payload bits, the high bit marks continuation, and no
trailing zero-continuation byte is emitted. -/
def encodeSerializedNumber (n : Nat) : List Nat :=
  if n < 0x80 then [n]
  else (0x80 + n % 0x80) :: encodeSerializedNumber (n / 0x80)
termination_by n
decreasing_by simp_wf; exact Nat.div_lt_self (by omega) (by omega)

/-- Loop shared by parseSerializedNumberOffset (generic.go lines 146-150) and
TransactionDestination (lines 108-111): apply parseSerializedNumber k times,
each time starting at the index where the previous number ended. -/
def GenericOperation.parseNumLoop (op : GenericOperation) : Nat → Nat × Nat → Nat × Nat
  | 0, acc => acc
  | k + 1, acc => op.parseNumLoop k (op.parseSerializedNumber acc.2)

/-- parseSerializedNumberOffset (generic.go lines 143-151): numbers always
begin at index 55; decode offset+1 consecutive numbers and return the last
value decoded. -/
def GenericOperation.parseSerializedNumberOffset (op : GenericOperation) (offset : Nat) :
    Nat :=
  (op.parseNumLoop (offset + 1) (0, 55)).1

/-- TransactionSource (generic.go lines 55-60).  Go returns the hex string of
op.hex[34:55] and the empty string for a non-transaction kind (rendered here
as some []).  For a transaction payload shorter than 55 bytes the Go slice
expression op.hex[34:55] is out of range and panics at runtime; that outcome
is modelled as none. -/
def GenericOperation.TransactionSource (op : GenericOperation) : Option (List Nat) :=
  if op.Kind ≠ opKindTransaction then some []
  else if 55 ≤ op.hex.length then some ((op.hex.take 55).drop 34)
  else none

/-- TransactionFee (generic.go lines 63-68). -/
def GenericOperation.TransactionFee (op : GenericOperation) : Option Nat :=
  if op.Kind ≠ opKindTransaction then none
  else some (op.parseSerializedNumberOffset 0)

/-- TransactionCounter (generic.go lines 71-76). -/
def GenericOperation.TransactionCounter (op : GenericOperation) : Option Nat :=
  if op.Kind ≠ opKindTransaction then none
  else some (op.parseSerializedNumberOffset 1)

/-- TransactionGasLimit (generic.go lines 79-84). -/
def GenericOperation.TransactionGasLimit (op : GenericOperation) : Option Nat :=
  if op.Kind ≠ opKindTransaction then none
  else some (op.parseSerializedNumberOffset 2)

/-- TransactionStorageLimit (generic.go lines 87-92). -/
def GenericOperation.TransactionStorageLimit (op : GenericOperation) : Option Nat :=
  if op.Kind ≠ opKindTransaction then none
  else some (op.parseSerializedNumberOffset 3)

/-- TransactionAmount (generic.go lines 95-100). -/
def GenericOperation.TransactionAmount (op : GenericOperation) : Option Nat :=
  if op.Kind ≠ opKindTransaction then none
  else some (op.parseSerializedNumberOffset 4)

/-- TransactionDestination (generic.go lines 103-127).  numberIndex is where
the five serialized numbers end; the destination slice runs from
numberIndex + 1 to numberIndex + 22 (Go half-open slice), and the result is
empty unless destinationEnd lands exactly on the last byte and that final
parameters-present byte is zero.  Go returns a hex string; we return the
byte slice, with the empty string rendered as [].  The Go slice
op.hex[destinationStart:destinationEnd] is within bounds whenever the
destinationEnd check passes, since destinationEnd = len - 1 < len. -/
def GenericOperation.TransactionDestination (op : GenericOperation) : List Nat :=
  if op.Kind ≠ opKindTransaction then []
  else
    let numberIndex := (op.parseNumLoop 5 (0, 55)).2
    let destinationStart := numberIndex + 1
    let destinationEnd := numberIndex + 22
    if destinationEnd ≠ op.hex.length - 1 then []
    else if op.hex.getD (op.hex.length - 1) 0 ≠ 0 then []
    else (op.hex.take destinationEnd).drop destinationStart

/-- TransactionValue (generic.go lines 130-140): total = 0 + fee + amount +
gas limit + storage limit; inside the transaction branch every accessor
yields a value, modelled by getD 0. -/
def GenericOperation.TransactionValue (op : GenericOperation) : Option Nat :=
  if op.Kind ≠ opKindTransaction then none
  else some (0 + op.TransactionFee.getD 0 + op.TransactionAmount.getD 0
      + op.TransactionGasLimit.getD 0 + op.TransactionStorageLimit.getD 0)

/-- A well-formed transaction payload: magic byte + 32-byte branch (zeros),
kind 0x6C at offset 33, a 21-byte source, the five serialized numbers
1,1,1,1,1 at indices 55-59, the destination tag byte 9 at index 60, 21
destination bytes 7, and the zero parameters-present flag. -/
def sampleTxOp : GenericOperation :=
  ⟨List.replicate 33 0 ++ [0x6C] ++ List.replicate 21 2
    ++ [1, 1, 1, 1, 1] ++ [9] ++ List.replicate 21 7 ++ [0]⟩

/-- A transaction-kind payload truncated to 34 bytes: magic byte + branch
(zeros) + the kind byte 0x6C, and nothing after it. -/
def truncatedTxOp : GenericOperation := ⟨List.replicate 33 0 ++ [0x6C]⟩

/-- Lexicographic order on (level, round) pairs, as used by the watermark. -/
def wmLt (a b : Nat × Nat) : Prop := a.1 < b.1 ∨ (a.1 = b.1 ∧ a.2 < b.2)

instance (a b : Nat × Nat) : Decidable (wmLt a b) := by unfold wmLt; infer_instance

/-- Modelled from the spec: the watermark package is not under src/ (only its
test callers are).  check_and_advance on a single (chain_id, pkh, kind)
entry: return allow and install the new pair iff (level, round) is
lexicographically greater than the stored pair or no entry exists; return
deny and leave the entry unchanged otherwise. -/
def checkAndAdvance (stored : Option (Nat × Nat)) (level round : Nat) :
    Bool × Option (Nat × Nat) :=
  match stored with
  | none => (true, some (level, round))
  | some p => if wmLt p (level, round) then (true, some (level, round)) else (false, some p)

/-- Modelled from the spec: a sequence of check_and_advance calls against a
fixed (chain_id, pkh, kind) entry, collecting the accepted (level, round)
pairs in order. -/
def runWatermark (stored : Option (Nat × Nat)) : List (Nat × Nat) → List (Nat × Nat)
  | [] => []
  | (l, r) :: rest =>
    let s := checkAndAdvance stored l r
    if s.1 then (l, r) :: runWatermark s.2 rest else runWatermark s.2 rest

/-- Modelled from the spec: the per-key daily-cap counters (daily_spent and
window_start), the mutable state co-located with the policy snapshot. -/
structure CapState where
  dailySpent : Nat
  windowStart : Nat
deriving DecidableEq

/-- Seconds in the 24-hour accounting window. -/
def secondsPerDay : Nat := 86400

/-- A sign request as seen by the daily cap: arrival time, the transaction's
total_value, and whether the backend sign call succeeds. -/
structure CapEvent where
  now : Nat
  value : Nat
  signOk : Bool
deriving DecidableEq

/-- Modelled from the spec: if now minus window_start is at least 24h, reset
daily_spent and window_start. -/
def capReset (st : CapState) (now : Nat) : CapState :=
  if secondsPerDay ≤ now - st.windowStart then ⟨0, now⟩ else st

/-- Modelled from the spec: the daily-cap check.  After the window reset,
deny if daily_spent + total_value exceeds tx_daily_max; otherwise the
request may be signed, and daily_spent is charged only after the backend
sign succeeds (a failed sign does not charge the cap). -/
def capStep (txDailyMax : Nat) (st : CapState) (e : CapEvent) : Bool × CapState :=
  let st1 := capReset st e.now
  if txDailyMax < st1.dailySpent + e.value then (false, st1)
  else if e.signOk then (true, ⟨st1.dailySpent + e.value, st1.windowStart⟩)
  else (false, st1)

/-- Modelled from the spec: run the daily cap over a sequence of requests,
returning the accepted (signed) requests and the final counters. -/
def runCap (txDailyMax : Nat) (st : CapState) : List CapEvent → List CapEvent × CapState
  | [] => ([], st)
  | e :: rest =>
    let s := capStep txDailyMax st e
    let r := runCap txDailyMax s.2 rest
    (if s.1 then e :: r.1 else r.1, r.2)

/-- Sum of total_value over a list of requests. -/
def sumValues (l : List CapEvent) : Nat := (l.map CapEvent.value).sum

/-- Modelled from the spec: magic byte constants (operation.go is not under
src/). -/
def opMagicByteBlock : Nat := 0x01

def opMagicByteEndorsement : Nat := 0x02

def opMagicByteGeneric : Nat := 0x03

/-- Modelled from the spec: the policy configuration snapshot (the filter
code is not under src/; field names follow its test callers). -/
structure OperationFilter where
  EnableTx : Bool
  EnableBlock : Bool
  EnableEndorsement : Bool
  EnableGenericNonTx : Bool
  TxWhitelistAddresses : List (List Nat)
  TxDailyMax : Option Nat
deriving DecidableEq

/-- Value of an ASCII hex digit, or none for any other character. -/
def hexDigitVal (c : Nat) : Option Nat :=
  if 48 ≤ c ∧ c ≤ 57 then some (c - 48)
  else if 97 ≤ c ∧ c ≤ 102 then some (c - 87)
  else if 65 ≤ c ∧ c ≤ 70 then some (c - 55)
  else none

/-- Decode an even-length ASCII hex string to bytes, or none when malformed. -/
def hexDecode : List Nat → Option (List Nat)
  | [] => some []
  | [_] => none
  | c1 :: c2 :: rest =>
    match hexDigitVal c1, hexDigitVal c2, hexDecode rest with
    | some hi, some lo, some bs => some ((16 * hi + lo) :: bs)
    | _, _, _ => none

/-- Modelled from the spec: the POST body is a JSON string, the hex of the
operation enclosed in ASCII double quotes (code 34). -/
def stripQuotes (body : List Nat) : Option (List Nat) :=
  match body with
  | 34 :: rest => if rest.getLast? = some 34 then some rest.dropLast else none
  | _ => none

/-- Modelled from the spec: ParseOperation (operation.go is not under src/):
strip the quotes, hex-decode, and require a magic byte in {block,
endorsement, generic}; the parsed payload keeps its magic byte, so the kind
byte of a generic operation sits at offset 33. -/
def parseRequest (body : List Nat) : Option (Nat × List Nat) :=
  match stripQuotes body with
  | none => none
  | some inner =>
    match hexDecode inner with
    | none => none
    | some [] => none
    | some (m :: rest) =>
      if m = opMagicByteBlock ∨ m = opMagicByteEndorsement ∨ m = opMagicByteGeneric then
        some (m, m :: rest)
      else none

/-- Modelled from the spec: the policy filter evaluated in order (kind gate,
source whitelist, daily cap, watermark), fail-closed; none means every check
passed and the operation may be signed, some code is the HTTP status of the
refusal.  lvlRound abstracts the level/round extraction for block and
endorsement payloads (that parsing code is not under src/); a panic while
parsing transaction fields is mapped to 500 by the recovery middleware. -/
def policyResult (f : OperationFilter) (wm : Option (Nat × Nat)) (now : Nat)
    (st : CapState) (lvlRound : List Nat → Nat × Nat) (m : Nat) (bs : List Nat) :
    Option Nat :=
  if m = opMagicByteBlock then
    if f.EnableBlock = false then some 403
    else if (checkAndAdvance wm (lvlRound bs).1 (lvlRound bs).2).1 then none else some 403
  else if m = opMagicByteEndorsement then
    if f.EnableEndorsement = false then some 403
    else if (checkAndAdvance wm (lvlRound bs).1 (lvlRound bs).2).1 then none else some 403
  else
    if GenericOperation.Kind ⟨bs⟩ = opKindUnknown then some 403
    else if GenericOperation.Kind ⟨bs⟩ = opKindTransaction then
      if f.EnableTx = false then some 403
      else
        match GenericOperation.TransactionSource ⟨bs⟩ with
        | none => some 500
        | some src =>
          if f.TxWhitelistAddresses ≠ [] ∧ src ∉ f.TxWhitelistAddresses then some 403
          else
            match f.TxDailyMax with
            | none => none
            | some mx =>
              if mx < (capReset st now).dailySpent
                  + (GenericOperation.TransactionValue ⟨bs⟩).getD 0 then some 403
              else none
    else if f.EnableGenericNonTx = false then some 403
    else none

/-- Modelled from the spec: the POST sign pipeline of the request server:
parse the body (failure: HTTP 400), evaluate the policy (refusal: its HTTP
status), and only then hand the payload to the signer backend (ok). -/
def handleSign (f : OperationFilter) (wm : Option (Nat × Nat)) (now : Nat)
    (st : CapState) (lvlRound : List Nat → Nat × Nat) (body : List Nat) :
    Except Nat (List Nat) :=
  match parseRequest body with
  | none => Except.error 400
  | some (m, bs) =>
    match policyResult f wm now st lvlRound m bs with
    | some code => Except.error code
    | none => Except.ok bs

/-- Minimal big-endian byte encoding of a natural number, as Go big.Int.Bytes
returns it: the empty slice for zero and no leading zero bytes.  The first
argument is recursion fuel only; the encoded value shrinks by a factor of
256 each step, so fuel = n always suffices (fuel independence is proved
below). -/
def bigIntBytesFuel : Nat → Nat → List Nat
  | 0, _ => []
  | _ + 1, 0 => []
  | fuel + 1, n + 1 => bigIntBytesFuel fuel ((n + 1) / 256) ++ [(n + 1) % 256]

/-- Go big.Int.Bytes on a non-negative value. -/
def bigIntBytes (n : Nat) : List Nat := bigIntBytesFuel n n

/-- Signature assembly in googleCloudKMSSigner.Sign (signer_gcp.go line 42):
after btcec.ParseDERSignature yields the pair (R, S), sigBytes is R.Bytes()
followed by S.Bytes(), with no padding. -/
def gcpSigBytes (r s : Nat) : List Nat := bigIntBytes r ++ bigIntBytes s

/-- Result of googleCloudKMSSigner.Sign after a successful backend call and
DER parse (signer_gcp.go lines 42-46): the concatenated signature is
returned only when it is exactly 64 bytes long; any other length is the
unexpected-signature-length error, modelled as none. -/
def gcpSignResult (r s : Nat) : Option (List Nat) :=
  if (gcpSigBytes r s).length = 64 then some (gcpSigBytes r s) else none

/-- Follows the claim's words, not the source: left-pad a byte string with
zeros to exactly 32 bytes. -/
def specPad32 (l : List Nat) : List Nat := List.replicate (32 - l.length) 0 ++ l

@[simp] theorem parseSerializedNumber_eq_aux (op : GenericOperation) (startIndex : Nat) :
    op.parseSerializedNumber startIndex =
      ((serializedNumAux (op.hex.drop startIndex)).1,
        startIndex + (serializedNumAux (op.hex.drop startIndex)).2) := by
  by_cases h : op.hex.length ≤ startIndex
  · rw [GenericOperation.parseSerializedNumber]
    simp [h, List.drop_eq_nil_of_le h, serializedNumAux]
  · have hlt : startIndex < op.hex.length := Nat.lt_of_not_le h
    have hd : op.hex.drop startIndex =
        op.hex.getD startIndex 0 :: op.hex.drop (startIndex + 1) := by
      rw [List.drop_eq_getElem_cons hlt, List.getD_eq_getElem op.hex 0 hlt]
    have ih := parseSerializedNumber_eq_aux op (startIndex + 1)
    rw [GenericOperation.parseSerializedNumber, hd]
    by_cases hb : 0x80 ≤ op.hex.getD startIndex 0
    · simp only [h, dif_neg, not_false_iff, hb, if_pos, serializedNumAux, ih]
      rw [Prod.mk.injEq]
      constructor <;> omega
    · simp only [h, dif_neg, not_false_iff, hb, if_neg, serializedNumAux]
      rw [Prod.mk.injEq]
      constructor <;> omega
termination_by op.hex.length - startIndex
decreasing_by simp_wf; omega

theorem serializedNumAux_encode (n : Nat) :
    serializedNumAux (encodeSerializedNumber n) = (n, (encodeSerializedNumber n).length) := by
  by_cases h : n < 0x80
  · rw [encodeSerializedNumber]
    simp only [h, if_pos, serializedNumAux, List.length_cons, List.length_nil]
    have : ¬ (0x80 ≤ n) := by omega
    simp only [this, if_neg, not_false_iff]
    rw [Prod.mk.injEq]
    constructor <;> omega
  · rw [encodeSerializedNumber]
    simp only [h, if_neg, not_false_iff]
    have ih := serializedNumAux_encode (n / 0x80)
    have hb : 0x80 ≤ 0x80 + n % 0x80 := by omega
    simp only [serializedNumAux, hb, if_pos, ih, List.length_cons]
    rw [Prod.mk.injEq]
    constructor <;> omega
termination_by n
decreasing_by simp_wf; exact Nat.div_lt_self (by omega) (by omega)

/-- C4: the variable-length integer decoder is correct for the little-endian
base-128 continuation encoding: decoding the canonical encoding of any
natural number n yields n (consuming exactly the encoding), and the decoder
reproduces all eleven reference vectors from 0x80 0x01 = 128 through
0x80 0x80 0x04 = 65536 exactly. -/
theorem parseSerializedNumber_correct (n : Nat) :
    (GenericOperation.mk (encodeSerializedNumber n)).parseSerializedNumber 0 =
        (n, (encodeSerializedNumber n).length)
    ∧ ((GenericOperation.mk [0x80, 0x01]).parseSerializedNumber 0).1 = 128
    ∧ ((GenericOperation.mk [0xFF, 0x7F]).parseSerializedNumber 0).1 = 16383
    ∧ ((GenericOperation.mk [0x80, 0x80, 0x01]).parseSerializedNumber 0).1 = 16384
    ∧ ((GenericOperation.mk [0x81, 0x80, 0x01]).parseSerializedNumber 0).1 = 16385
    ∧ ((GenericOperation.mk [0xFF, 0xFF, 0x01]).parseSerializedNumber 0).1 = 32767
    ∧ ((GenericOperation.mk [0x80, 0x80, 0x02]).parseSerializedNumber 0).1 = 32768
    ∧ ((GenericOperation.mk [0x81, 0x80, 0x02]).parseSerializedNumber 0).1 = 32769
    ∧ ((GenericOperation.mk [0xFF, 0x80, 0x02]).parseSerializedNumber 0).1 = 32895
    ∧ ((GenericOperation.mk [0x80, 0x81, 0x02]).parseSerializedNumber 0).1 = 32896
    ∧ ((GenericOperation.mk [0xFF, 0xFF, 0x03]).parseSerializedNumber 0).1 = 65535
    ∧ ((GenericOperation.mk [0x80, 0x80, 0x04]).parseSerializedNumber 0).1 = 65536 := by
  refine ⟨?_, ?_, ?_, ?_, ?_, ?_, ?_, ?_, ?_, ?_, ?_, ?_⟩
  · rw [parseSerializedNumber_eq_aux]
    simp [serializedNumAux_encode]
  all_goals rw [parseSerializedNumber_eq_aux]
  all_goals decide

/-- C5: for every buffer and every start index at or past its end, the
decoder returns zero together with the start index, consuming nothing:
running off the end of the buffer is a recoverable parse failure. -/
theorem parseSerializedNumber_out_of_range (op : GenericOperation) (startIndex : Nat)
    (h : op.hex.length ≤ startIndex) :
    op.parseSerializedNumber startIndex = (0, startIndex) := by
  rw [GenericOperation.parseSerializedNumber]
  simp [h]

theorem parseSerializedNumber_out_of_range_witness :
    (GenericOperation.mk [1, 2, 3]).hex.length ≤ 7
    ∧ (GenericOperation.mk [1, 2, 3]).parseSerializedNumber 7 = (0, 7) :=
  ⟨by decide, parseSerializedNumber_out_of_range ⟨[1, 2, 3]⟩ 7 (by decide)⟩

/-- C6: Kind returns the byte at fixed offset 33 of the payload, and any
payload of 33 bytes or fewer has the unknown kind 0xff. -/
theorem kind_fixed_offset (op : GenericOperation) :
    (33 < op.hex.length → op.Kind = op.hex.getD 33 0)
    ∧ (op.hex.length ≤ 33 → op.Kind = opKindUnknown) := by
  constructor <;> intro h <;> simp [GenericOperation.Kind] <;> omega

theorem kind_fixed_offset_witness :
    (GenericOperation.mk (List.replicate 33 0 ++ [0x6C])).Kind =
        (List.replicate 33 0 ++ [0x6C]).getD 33 0
    ∧ (GenericOperation.mk [0x05]).Kind = opKindUnknown :=
  ⟨(kind_fixed_offset ⟨List.replicate 33 0 ++ [0x6C]⟩).1 (by decide),
   (kind_fixed_offset ⟨[0x05]⟩).2 (by decide)⟩

theorem wmLt_trans (a b c : Nat × Nat) (h1 : wmLt a b) (h2 : wmLt b c) : wmLt a c := by
  obtain ⟨a1, a2⟩ := a
  obtain ⟨b1, b2⟩ := b
  obtain ⟨c1, c2⟩ := c
  simp only [wmLt] at h1 h2 ⊢
  omega

theorem runWatermark_all_gt (reqs : List (Nat × Nat)) :
    ∀ (w : Nat × Nat), ∀ q ∈ runWatermark (some w) reqs, wmLt w q := by
  induction reqs with
  | nil => intro w q hq; simp [runWatermark] at hq
  | cons hd tl ih =>
    intro w q hq
    obtain ⟨l, r⟩ := hd
    by_cases hlt : wmLt w (l, r)
    · simp only [runWatermark, checkAndAdvance, hlt, if_pos, List.mem_cons] at hq
      rcases hq with h | h
      · subst h; exact hlt
      · exact wmLt_trans _ _ _ hlt (ih (l, r) q h)
    · simp only [runWatermark, checkAndAdvance, hlt, if_neg, not_false_iff] at hq
      exact ih w q hq

theorem runWatermark_chain (reqs : List (Nat × Nat)) :
    ∀ stored, List.Chain' wmLt (runWatermark stored reqs) := by
  induction reqs with
  | nil => intro stored; simp [runWatermark]
  | cons hd tl ih =>
    intro stored
    obtain ⟨l, r⟩ := hd
    cases stored with
    | none =>
      simp only [runWatermark, checkAndAdvance, if_pos]
      rw [List.chain'_cons']
      exact ⟨fun y hy => runWatermark_all_gt tl (l, r) y (List.mem_of_mem_head? hy),
        ih (some (l, r))⟩
    | some w =>
      by_cases hlt : wmLt w (l, r)
      · simp only [runWatermark, checkAndAdvance, hlt, if_pos]
        rw [List.chain'_cons']
        exact ⟨fun y hy => runWatermark_all_gt tl (l, r) y (List.mem_of_mem_head? hy),
          ih (some (l, r))⟩
      · simp only [runWatermark, checkAndAdvance, hlt, if_neg, not_false_iff]
        exact ih (some w)

/-- C1: for a fixed (chain_id, public_key_hash, kind) entry the sequence of
accepted (level, round) pairs across any sequence of check_and_advance
calls is strictly increasing under lexicographic order; check_and_advance
returns allow and installs the new pair iff the pair is strictly greater
than the stored one or no entry exists, returns deny leaving the entry
unchanged otherwise; in particular a second endorsement at an
already-signed (level, round) is denied and the policy maps that refusal
to HTTP 403. -/
theorem watermark_monotone (reqs : List (Nat × Nat)) (stored : Option (Nat × Nat))
    (level round : Nat) :
    List.Chain' wmLt (runWatermark none reqs)
    ∧ ((checkAndAdvance stored level round).1 = true ↔
        stored = none ∨ ∃ p, stored = some p ∧ wmLt p (level, round))
    ∧ ((checkAndAdvance stored level round).1 = true →
        (checkAndAdvance stored level round).2 = some (level, round))
    ∧ ((checkAndAdvance stored level round).1 = false →
        (checkAndAdvance stored level round).2 = stored)
    ∧ (checkAndAdvance (some (level, round)) level round).1 = false
    ∧ (∀ f st lvlRound bs now,
        f.EnableEndorsement = true →
        (checkAndAdvance stored (lvlRound bs).1 (lvlRound bs).2).1 = false →
        policyResult f stored now st lvlRound opMagicByteEndorsement bs = some 403) := by
  refine ⟨runWatermark_chain reqs none, ?_, ?_, ?_, ?_, ?_⟩
  · cases stored with
    | none => simp [checkAndAdvance]
    | some p =>
      by_cases hlt : wmLt p (level, round)
      · simp [checkAndAdvance, hlt]
      · simp [checkAndAdvance, hlt]
  · cases stored with
    | none => intro _; simp [checkAndAdvance]
    | some p =>
      intro h
      by_cases hlt : wmLt p (level, round)
      · simp [checkAndAdvance, hlt]
      · simp [checkAndAdvance, hlt] at h
  · cases stored with
    | none => intro h; simp [checkAndAdvance] at h
    | some p =>
      intro h
      by_cases hlt : wmLt p (level, round)
      · simp [checkAndAdvance, hlt] at h
      · simp [checkAndAdvance, hlt]
  · have : ¬ wmLt (level, round) (level, round) := by simp [wmLt]
    simp [checkAndAdvance, this]
  · intro f st lvlRound bs now h1 h2
    simp [policyResult, opMagicByteBlock, opMagicByteEndorsement, h1, h2]

theorem watermark_monotone_witness :
    List.Chain' wmLt (runWatermark none [(259938, 0), (259938, 0), (259939, 0)])
    ∧ (checkAndAdvance (some (259938, 0)) 259938 0).1 = false
    ∧ (checkAndAdvance (some (259938, 0)) 259939 0).2 = some (259939, 0) :=
  ⟨(watermark_monotone [(259938, 0), (259938, 0), (259939, 0)] none 0 0).1,
   (watermark_monotone [] (some (259938, 0)) 259938 0).2.2.2.2.1,
   (watermark_monotone [] (some (259938, 0)) 259939 0).2.2.1 (by decide)⟩

/-- C2 counterexample: with tx_daily_max = 1500000 and the window started at
time 0, two transactions of total_value 1000000 at times 86399 and 86400
are both accepted (the second lands right after the fixed-window reset),
yet both lie within a single rolling 24-hour span and together exceed the
cap, so the rolling-window reading of the claim fails. -/
theorem daily_cap_rolling_window_violated :
    (runCap 1500000 ⟨0, 0⟩ [⟨86399, 1000000, true⟩, ⟨86400, 1000000, true⟩]).1
      = [⟨86399, 1000000, true⟩, ⟨86400, 1000000, true⟩]
    ∧ 86400 - 86399 < secondsPerDay
    ∧ 1500000 < sumValues [⟨86399, 1000000, true⟩, ⟨86400, 1000000, true⟩] := by
  refine ⟨?_, ?_, ?_⟩ <;> decide

theorem runCap_no_reset (txDailyMax : Nat) (events : List CapEvent) :
    ∀ (st : CapState), st.dailySpent ≤ txDailyMax →
      (∀ e ∈ events, e.now - st.windowStart < secondsPerDay) →
      (runCap txDailyMax st events).2.windowStart = st.windowStart
      ∧ (runCap txDailyMax st events).2.dailySpent
          = st.dailySpent + sumValues (runCap txDailyMax st events).1
      ∧ (runCap txDailyMax st events).2.dailySpent ≤ txDailyMax := by
  induction events with
  | nil =>
    intro st h1 h2
    refine ⟨rfl, ?_, ?_⟩ <;> simp [runCap, sumValues, h1]
  | cons e tl ih =>
    intro st h1 h2
    have hr : capReset st e.now = st := by
      unfold capReset
      have := h2 e (by simp)
      simp [Nat.not_le.mpr this]
    by_cases hd : txDailyMax < st.dailySpent + e.value
    · have hs : capStep txDailyMax st e = (false, st) := by
        unfold capStep
        rw [hr]
        simp [hd]
      have htl := ih st h1 (fun x hx => h2 x (by simp [hx]))
      simp only [runCap, hs]
      simpa using htl
    · by_cases hok : e.signOk
      · have hs : capStep txDailyMax st e
            = (true, ⟨st.dailySpent + e.value, st.windowStart⟩) := by
          unfold capStep
          rw [hr]
          simp [hd, hok]
        have h1' : (CapState.mk (st.dailySpent + e.value) st.windowStart).dailySpent
            ≤ txDailyMax := Nat.not_lt.mp hd
        have h2' : ∀ x ∈ tl,
            x.now - (CapState.mk (st.dailySpent + e.value) st.windowStart).windowStart
              < secondsPerDay := fun x hx => h2 x (by simp [hx])
        have htl := ih _ h1' h2'
        simp only [runCap, hs, if_pos]
        refine ⟨by simpa using htl.1, ?_, by simpa using htl.2.2⟩
        have := htl.2.1
        simp only [sumValues, List.map_cons, List.sum_cons] at this ⊢
        omega
      · have hs : capStep txDailyMax st e = (false, st) := by
          unfold capStep
          rw [hr]
          simp [hd, hok]
        have htl := ih st h1 (fun x hx => h2 x (by simp [hx]))
        simp only [runCap, hs]
        simpa using htl

/-- C2 amended: within a single accounting window (no request arrives 24h or
more after window_start, so no reset fires) the sum of total_value over the
accepted transactions never pushes daily_spent past tx_daily_max — so that
sum is at most tx_daily_max — and daily_spent is charged only when the
backend sign succeeds: a request whose sign fails is not counted and
leaves daily_spent unchanged.  (Across a window reset, a rolling 24-hour
span can see up to twice the cap, per the counterexample.) -/
theorem daily_cap_window_bound (txDailyMax : Nat) (events : List CapEvent) (st : CapState)
    (h1 : st.dailySpent ≤ txDailyMax)
    (h2 : ∀ e ∈ events, e.now - st.windowStart < secondsPerDay) :
    st.dailySpent + sumValues (runCap txDailyMax st events).1 ≤ txDailyMax
    ∧ (runCap txDailyMax st events).2.dailySpent ≤ txDailyMax
    ∧ (∀ e, e.signOk = false →
        (capStep txDailyMax st e).1 = false
        ∧ (capStep txDailyMax st e).2.dailySpent = (capReset st e.now).dailySpent) := by
  have h := runCap_no_reset txDailyMax events st h1 h2
  refine ⟨by rw [← h.2.1]; exact h.2.2, h.2.2, ?_⟩
  intro e he
  unfold capStep
  by_cases hd : txDailyMax < (capReset st e.now).dailySpent + e.value
  · simp [hd]
  · simp [hd, he]

theorem daily_cap_window_bound_witness :
    (CapState.mk 0 0).dailySpent
        + sumValues (runCap 1500000 ⟨0, 0⟩ [⟨10, 1013575, true⟩, ⟨20, 1013575, true⟩]).1
      ≤ 1500000 :=
  (daily_cap_window_bound 1500000 [⟨10, 1013575, true⟩, ⟨20, 1013575, true⟩] ⟨0, 0⟩
    (by decide) (by decide)).1

/-- C3: if parsing the body fails the server answers HTTP 400 without
touching the signer backend; if any policy check refuses — in particular a
transaction operation while enable_tx is false — the server answers with
the refusal's status (403 for policy denials) without touching the
backend; and the backend receives the payload only when parsing succeeded
and every policy check passed. -/
theorem server_fail_closed (f : OperationFilter) (wm : Option (Nat × Nat)) (now : Nat)
    (st : CapState) (lvlRound : List Nat → Nat × Nat) (body : List Nat) :
    (parseRequest body = none → handleSign f wm now st lvlRound body = Except.error 400)
    ∧ (∀ bs, parseRequest body = some (opMagicByteGeneric, bs) →
        GenericOperation.Kind ⟨bs⟩ = opKindTransaction → f.EnableTx = false →
        handleSign f wm now st lvlRound body = Except.error 403)
    ∧ (∀ m bs code, parseRequest body = some (m, bs) →
        policyResult f wm now st lvlRound m bs = some code →
        handleSign f wm now st lvlRound body = Except.error code)
    ∧ (∀ msg, handleSign f wm now st lvlRound body = Except.ok msg →
        ∃ m, parseRequest body = some (m, msg)
          ∧ policyResult f wm now st lvlRound m msg = none) := by
  refine ⟨?_, ?_, ?_, ?_⟩
  · intro h
    simp [handleSign, h]
  · intro bs hp hk he
    have hpol : policyResult f wm now st lvlRound opMagicByteGeneric bs = some 403 := by
      unfold policyResult
      simp only [opMagicByteBlock, opMagicByteEndorsement, opMagicByteGeneric]
      norm_num
      rw [hk]
      simp [opKindTransaction, opKindUnknown, he]
    simp [handleSign, hp, hpol]
  · intro m bs code hp hpol
    simp [handleSign, hp, hpol]
  · intro msg h
    unfold handleSign at h
    cases hp : parseRequest body with
    | none => rw [hp] at h; exact absurd h (by simp)
    | some v =>
      obtain ⟨m, bs⟩ := v
      rw [hp] at h
      have h' : (match policyResult f wm now st lvlRound m bs with
          | some code => Except.error code
          | none => Except.ok bs) = Except.ok msg := h
      cases hpol : policyResult f wm now st lvlRound m bs with
      | some code => rw [hpol] at h'; simp at h'
      | none =>
        rw [hpol] at h'
        simp only [Except.ok.injEq] at h'
        subst h'
        exact ⟨m, rfl, hpol⟩

theorem server_fail_closed_witness :
    handleSign ⟨false, false, false, false, [], none⟩ none 0 ⟨0, 0⟩ (fun _ => (0, 0))
        (34 :: 48 :: 51 :: (List.replicate 64 48 ++ [54, 99, 34]))
      = Except.error 403 :=
  (server_fail_closed ⟨false, false, false, false, [], none⟩ none 0 ⟨0, 0⟩
      (fun _ => (0, 0)) (34 :: 48 :: 51 :: (List.replicate 64 48 ++ [54, 99, 34]))).2.1
    (3 :: (List.replicate 32 0 ++ [0x6C])) (by decide) (by decide) (by decide)

/-- C7 counterexample: on a well-formed transaction the five serialized
numbers end at index 60, but TransactionDestination returns the 21 bytes
starting at index 61, not the 21 bytes immediately following the numbers
at index 60: the byte at numberIndex (the destination tag) is skipped, so
the claim's "immediately following" reading is false. -/
theorem transaction_destination_not_adjacent :
    (sampleTxOp.parseNumLoop 5 (0, 55)).2 = 60
    ∧ sampleTxOp.TransactionDestination = (sampleTxOp.hex.drop 61).take 21
    ∧ sampleTxOp.TransactionDestination ≠ (sampleTxOp.hex.drop 60).take 21 := by
  refine ⟨?_, ?_, ?_⟩ <;>
    simp only [GenericOperation.TransactionDestination, GenericOperation.parseNumLoop,
      parseSerializedNumber_eq_aux] <;>
    decide

/-- C7 amended: for every transaction-kind operation TransactionDestination
returns the 21 bytes starting one byte past the end of the five serialized
numbers (the byte at numberIndex itself is the destination tag and is
skipped); the result is the empty string unless the destination end offset
numberIndex + 22 equals len(bytes) - 1, and it is the empty string when
the final parameters_present byte is nonzero. -/
theorem transaction_destination_fields (op : GenericOperation)
    (hk : op.Kind = opKindTransaction) :
    ((op.parseNumLoop 5 (0, 55)).2 + 22 = op.hex.length - 1 →
      op.hex.getD (op.hex.length - 1) 0 = 0 →
      op.TransactionDestination
          = (op.hex.drop ((op.parseNumLoop 5 (0, 55)).2 + 1)).take 21
      ∧ op.TransactionDestination.length = 21)
    ∧ ((op.parseNumLoop 5 (0, 55)).2 + 22 ≠ op.hex.length - 1 →
      op.TransactionDestination = [])
    ∧ (op.hex.getD (op.hex.length - 1) 0 ≠ 0 → op.TransactionDestination = []) := by
  have hlen : 33 < op.hex.length := by
    by_contra hc
    rw [GenericOperation.Kind] at hk
    rw [if_pos (Nat.le_of_not_lt hc)] at hk
    exact absurd hk (by decide)
  refine ⟨?_, ?_, ?_⟩
  · intro hend hlast
    unfold GenericOperation.TransactionDestination
    rw [if_neg (by simp [hk]), if_neg (by omega), if_neg (by omega)]
    rw [List.drop_take]
    constructor
    · congr 1
      omega
    · rw [List.length_take, List.length_drop]
      omega
  · intro hne
    unfold GenericOperation.TransactionDestination
    rw [if_neg (by simp [hk]), if_pos hne]
  · intro hnz
    unfold GenericOperation.TransactionDestination
    rw [if_neg (by simp [hk])]
    by_cases hend : (op.parseNumLoop 5 (0, 55)).2 + 22 = op.hex.length - 1
    · rw [if_neg (by omega), if_pos hnz]
    · rw [if_pos hend]

theorem transaction_destination_fields_witness :
    sampleTxOp.TransactionDestination
        = (sampleTxOp.hex.drop ((sampleTxOp.parseNumLoop 5 (0, 55)).2 + 1)).take 21
    ∧ sampleTxOp.TransactionDestination.length = 21 :=
  (transaction_destination_fields sampleTxOp (by decide)).1
    (by simp only [GenericOperation.parseNumLoop, parseSerializedNumber_eq_aux]; decide)
    (by decide)

/-- C8: for every transaction-kind operation TransactionValue is exactly the
sum fee + amount + gas_limit + storage_limit of the decoded serialized
numbers (arbitrary precision: the Nat embedding never overflows), and for
every operation of any other kind every transaction accessor returns the
neutral empty value (none for the numeric ones, the empty string for
source and destination). -/
theorem transaction_value_sum (op : GenericOperation) :
    (op.Kind = opKindTransaction →
      op.TransactionValue = some (op.TransactionFee.getD 0 + op.TransactionAmount.getD 0
        + op.TransactionGasLimit.getD 0 + op.TransactionStorageLimit.getD 0))
    ∧ (op.Kind ≠ opKindTransaction →
      op.TransactionValue = none ∧ op.TransactionFee = none ∧ op.TransactionCounter = none
      ∧ op.TransactionGasLimit = none ∧ op.TransactionStorageLimit = none
      ∧ op.TransactionAmount = none ∧ op.TransactionSource = some []
      ∧ op.TransactionDestination = []) := by
  constructor
  · intro h
    unfold GenericOperation.TransactionValue
    rw [if_neg (by simp [h])]
    rw [Nat.zero_add]
  · intro h
    unfold GenericOperation.TransactionValue GenericOperation.TransactionFee
      GenericOperation.TransactionCounter GenericOperation.TransactionGasLimit
      GenericOperation.TransactionStorageLimit GenericOperation.TransactionAmount
      GenericOperation.TransactionSource GenericOperation.TransactionDestination
    simp [h]

theorem transaction_value_sum_witness :
    sampleTxOp.TransactionValue
        = some (sampleTxOp.TransactionFee.getD 0 + sampleTxOp.TransactionAmount.getD 0
          + sampleTxOp.TransactionGasLimit.getD 0 + sampleTxOp.TransactionStorageLimit.getD 0)
    ∧ (GenericOperation.mk []).TransactionValue = none :=
  ⟨(transaction_value_sum sampleTxOp).1 (by decide),
   ((transaction_value_sum ⟨[]⟩).2 (by decide)).1⟩

/-- C9: the claim fails on the code: a 34-byte payload whose byte at offset
33 is 0x6C has transaction kind, yet TransactionSource evaluates the Go
slice op.hex[34:55] on it, which is out of bounds — a runtime panic
(modelled here as none), not the recoverable parse error the claim and the
spec's error taxonomy require for truncated payloads. -/
theorem transaction_source_truncated_panics :
    truncatedTxOp.Kind = opKindTransaction
    ∧ truncatedTxOp.hex.length = 34
    ∧ truncatedTxOp.TransactionSource = none := by
  refine ⟨?_, ?_, ?_⟩ <;> decide

theorem bigIntBytesFuel_irrelevant (f1 : Nat) :
    ∀ (f2 n : Nat), n ≤ f1 → n ≤ f2 → bigIntBytesFuel f1 n = bigIntBytesFuel f2 n := by
  induction f1 with
  | zero =>
    intro f2 n h1 h2
    have hn : n = 0 := by omega
    subst hn
    cases f2 <;> simp [bigIntBytesFuel]
  | succ g ih =>
    intro f2 n h1 h2
    cases n with
    | zero => cases f2 <;> simp [bigIntBytesFuel]
    | succ m =>
      cases f2 with
      | zero => omega
      | succ k =>
        simp only [bigIntBytesFuel]
        have hlt : (m + 1) / 256 < m + 1 := Nat.div_lt_self (by omega) (by omega)
        rw [ih k ((m + 1) / 256) (by omega) (by omega)]

theorem bigIntBytesFuel_length_le (f : Nat) :
    ∀ (n k : Nat), n ≤ f → n < 256 ^ k → (bigIntBytesFuel f n).length ≤ k := by
  induction f with
  | zero =>
    intro n k h1 h2
    simp [bigIntBytesFuel]
  | succ g ih =>
    intro n k h1 h2
    cases n with
    | zero => simp [bigIntBytesFuel]
    | succ m =>
      cases k with
      | zero => simp at h2
      | succ j =>
        simp only [bigIntBytesFuel, List.length_append, List.length_cons, List.length_nil]
        have hlt : (m + 1) / 256 < m + 1 := Nat.div_lt_self (by omega) (by omega)
        have hdiv : (m + 1) / 256 < 256 ^ j := by
          apply Nat.div_lt_of_lt_mul
          calc m + 1 < 256 ^ (j + 1) := h2
            _ = 256 * 256 ^ j := by ring
        have := ih ((m + 1) / 256) j (by omega) hdiv
        omega

/-- C10 counterexample: with R = 1 (whose minimal big-endian encoding is
one byte) and S = 2^255 (32 bytes), the code reports the
unexpected-signature-length error (none) instead of left-padding R, even
though the left-padded 64-byte form exists; so the claim's "left-padded
with zero bytes if necessary" is false of the code. -/
theorem gcp_sign_no_padding :
    gcpSignResult 1 (2 ^ 255) = none
    ∧ gcpSignResult 1 (2 ^ 255)
        ≠ some (specPad32 (bigIntBytes 1) ++ specPad32 (bigIntBytes (2 ^ 255)))
    ∧ (specPad32 (bigIntBytes 1) ++ specPad32 (bigIntBytes (2 ^ 255))).length = 64 := by
  refine ⟨?_, ?_, ?_⟩ <;> decide

/-- C10 amended: the signer emits the concatenation of the minimal
big-endian encodings of R and S with no left-padding; the signature is
returned iff that concatenation is exactly 64 bytes (each component
already exactly 32 bytes), any other length is reported as an error, and
in particular every R below 2^248 paired with an S below 2^256 yields the
error rather than a padded 64-byte signature. -/
theorem gcp_sign_minimal (r s : Nat) :
    ((gcpSigBytes r s).length = 64 →
      gcpSignResult r s = some (bigIntBytes r ++ bigIntBytes s))
    ∧ ((gcpSigBytes r s).length ≠ 64 → gcpSignResult r s = none)
    ∧ (r < 2 ^ 248 → s < 2 ^ 256 → gcpSignResult r s = none) := by
  refine ⟨?_, ?_, ?_⟩
  · intro h
    unfold gcpSignResult
    rw [if_pos h]
    rfl
  · intro h
    unfold gcpSignResult
    rw [if_neg h]
  · intro hr hs
    have h1 : (bigIntBytes r).length ≤ 31 := by
      apply bigIntBytesFuel_length_le r r 31 le_rfl
      calc r < 2 ^ 248 := hr
        _ = 256 ^ 31 := by norm_num
    have h2 : (bigIntBytes s).length ≤ 32 := by
      apply bigIntBytesFuel_length_le s s 32 le_rfl
      calc s < 2 ^ 256 := hs
        _ = 256 ^ 32 := by norm_num
    have hne : (gcpSigBytes r s).length ≠ 64 := by
      unfold gcpSigBytes bigIntBytes at *
      rw [List.length_append]
      omega
    unfold gcpSignResult
    rw [if_neg hne]

theorem gcp_sign_minimal_witness :
    gcpSignResult (2 ^ 255) (2 ^ 255)
        = some (bigIntBytes (2 ^ 255) ++ bigIntBytes (2 ^ 255))
    ∧ gcpSignResult 5 (2 ^ 255) = none :=
  ⟨(gcp_sign_minimal (2 ^ 255) (2 ^ 255)).1 (by decide),
   (gcp_sign_minimal 5 (2 ^ 255)).2.2 (by decide) (by decide)⟩
